import Mathlib

set_option autoImplicit false

/-!
Shallow embedding of the batched, resumable stack-walking engine of
`src/src/hotspot/share/prims/stackwalk.cpp`.

A logical call stack is a list of frames; a `JavaFrameStream` (the
class-only cursor) keeps the list of frames not yet consumed, together
with the guard data of its `BaseFrameStream` base (owning thread,
recorded anchor, address-derived token value).  The user-supplied
`frames_array` is a total function from slot indices to slot contents;
slot 0 (`magic_pos`) is the reserved guard slot.  Machine `jlong`/`int`
values are `Int`; oops and thread identities are `Nat` (0 = null).
-/

/-- Relevant metadata of a `Method*` as used by the walker. -/
structure Method where
  mid : Nat
  hidden : Bool
  caller_sensitive : Bool
  is_continuation_enter_intrinsic : Bool
  /-- `method_holder()->java_mirror()` -/
  holder_mirror : Nat
  /-- whether `method_holder()` is `StackWalker_klass`, `AbstractStackWalker_klass`
      or a direct subclass of the latter (the skip condition of `fetchFirstBatch`). -/
  holder_is_walker : Bool
deriving DecidableEq, Repr

/-- One activation record as seen through a `vframeStream`:
    the resolved method (possibly null) and the current bytecode offset. -/
structure Frame where
  method : Option Method
  bci : Nat
deriving DecidableEq, Repr

/-- Contents of one slot of the user-supplied `frames_array`. -/
inductive Slot
  /-- a null oop -/
  | null
  /-- the `threadObj()` of thread `t` (written into the reserved slot) -/
  | threadObj (t : Nat)
  /-- a `java_mirror` written by the fast path of `JavaFrameStream::fill_frame` -/
  | mirror (k : Nat)
  /-- a `StackFrameInfo` filled by `fill_stackframe` (method, bci, continuation) -/
  | frameInfo (mid : Nat) (bci : Nat) (cont : Nat)
  /-- arbitrary caller-owned content -/
  | raw (v : Nat)
deriving DecidableEq, Repr

/-- The user-supplied buffer (`objArrayHandle frames_array`). -/
abbrev Buffer := Nat → Slot

/-- index of the reserved guard slot -/
def magic_pos : Nat := 0

/-- The error taxonomy of the walker (thrown Java exceptions).
    `other e` stands for a foreign exception pending after the call
    out to `AbstractStackWalker::doStackWalk`. -/
inductive WalkError
  | nullBuffer
  | corruptedBuffer
  | unsupportedCallerSensitive
  | decodeFailure
  | internalDecodeError
  | other (e : Nat)
deriving DecidableEq, Repr

/-- Modelled from the spec: the mode-word predicates `need_method_info`,
    `get_caller_class`, `skip_hidden_frames`, `live_frame_info` are bit tests
    declared in the (absent) `stackwalk.hpp`; the spec describes them as
    independent walk options, so the mode is a record of flags. -/
structure Mode where
  need_method_info : Bool
  get_caller_class : Bool
  skip_hidden_frames : Bool
  live_frame_info : Bool
deriving DecidableEq, Repr

/-- The class-only cursor `JavaFrameStream` together with its
    `BaseFrameStream` base state.  `frames` is the remaining suffix of the
    walked stack (`_vfst`); its head is the current frame. -/
structure JavaFrameStream where
  frames : List Frame
  /-- `_thread` (identified with its `threadObj()`) -/
  thread : Nat
  /-- `_continuation` handle of the base stream (0 = null) -/
  continuation : Nat
  /-- `_anchor` -/
  anchor : Int
  /-- Modelled from the spec: `address_value()` is declared in the absent
      `stackwalk.hpp`; per the spec it is the process-unique address-derived
      token value of this cursor, here a field of the cursor. -/
  addr : Nat
  /-- `_need_method_info` -/
  need_method_info : Bool
deriving DecidableEq, Repr

def JavaFrameStream.at_end (s : JavaFrameStream) : Bool :=
  s.frames.isEmpty

/-- `method()`: the current frame's resolved method. -/
def JavaFrameStream.method (s : JavaFrameStream) : Option Method :=
  match s.frames with
  | [] => none
  | f :: _ => f.method

/-- `bci()`: the current frame's bytecode offset. -/
def JavaFrameStream.bci (s : JavaFrameStream) : Nat :=
  match s.frames with
  | [] => 0
  | f :: _ => f.bci

/-- `JavaFrameStream::next`: advance the underlying `vframeStream`, and skip
    one further frame when the new current method is the continuation-enter
    intrinsic. -/
def JavaFrameStream.next (s : JavaFrameStream) : JavaFrameStream :=
  match s.frames with
  | [] => s
  | _ :: [] => { s with frames := [] }
  | _ :: g :: rest2 =>
    if (g.method.map (·.is_continuation_enter_intrinsic)).getD false then
      { s with frames := rest2 }
    else
      { s with frames := g :: rest2 }

/-- `BaseFrameStream::check_magic`: the reserved slot holds the owning
    thread's `threadObj()` and the recorded anchor equals `address_value()`. -/
def check_magic (s : JavaFrameStream) (buf : Buffer) : Bool :=
  buf magic_pos == Slot.threadObj s.thread && s.anchor == (s.addr : Int)

/-- Modelled from the spec: `is_valid_in` is declared in the absent
    `stackwalk.hpp`; per the spec, validation requires the same owning
    thread and an uncorrupted reserved slot (`check_magic`). -/
def is_valid_in (s : JavaFrameStream) (jt : Nat) (buf : Buffer) : Bool :=
  s.thread == jt && check_magic s buf

/-- `BaseFrameStream::setup_magic_on_entry`: write the owning thread's
    `threadObj()` into the reserved slot and record the anchor. -/
def setup_magic_on_entry (s : JavaFrameStream) (buf : Buffer) :
    JavaFrameStream × Buffer :=
  ({ s with anchor := (s.addr : Int) },
   Function.update buf magic_pos (Slot.threadObj s.thread))

/-- `BaseFrameStream::cleanup_magic_on_exit`: report whether the magic still
    checked out, then always null the reserved slot and zero the anchor. -/
def cleanup_magic_on_exit (s : JavaFrameStream) (buf : Buffer) :
    Bool × JavaFrameStream × Buffer :=
  (check_magic s buf,
   { s with anchor := 0 },
   Function.update buf magic_pos Slot.null)

/-- `JavaFrameStream::fill_frame`: with method info requested, fill the
    pre-allocated `StackFrameInfo` in the slot; otherwise (fast path) store
    the declaring type's mirror. -/
def JavaFrameStream.fill_frame (s : JavaFrameStream) (index : Nat)
    (buf : Buffer) (m : Method) : Buffer :=
  if s.need_method_info then
    Function.update buf index (Slot.frameInfo m.mid s.bci s.continuation)
  else
    Function.update buf index (Slot.mirror m.holder_mirror)

/-- Result of `StackWalk::fill_in_frames`.  `result` is the returned
    `frames_decoded` count, or the thrown exception; `end_index` is the
    in-out end index; `decoded` lists the frames actually decoded by this
    call (ghost output used to state properties); `stream` and `buf` are
    the cursor and buffer after the call. -/
structure FillOut where
  result : Except WalkError Nat
  end_index : Nat
  decoded : List Frame
  stream : JavaFrameStream
  buf : Buffer

/-- `StackWalk::fill_in_frames`: iterate from the cursor's current position;
    skip frames with no resolvable method; skip hidden methods unless
    `ShowHiddenFrames` (`sh`); fail with `UnsupportedCallerSensitive` when the
    fast path would write a caller-sensitive method at `start_index`;
    otherwise decode into slot `end_index` and stop after `max_nframes`
    retained frames or at the end of the stream.  The cursor is left on the
    last decoded frame (never advanced past it). -/
def fill_in_frames (sh : Bool) (mode : Mode) (s : JavaFrameStream)
    (max_nframes : Int) (start_index : Nat) (end_index : Nat)
    (frames_decoded : Nat) (buf : Buffer) : FillOut :=
  match h : s.frames with
  | [] => ⟨.ok frames_decoded, end_index, [], s, buf⟩
  | f :: tl =>
    match f.method with
    | none =>
      -- `if (method == NULL) continue;`
      fill_in_frames sh mode s.next max_nframes start_index end_index
        frames_decoded buf
    | some m =>
      if !sh && (mode.skip_hidden_frames || mode.get_caller_class) && m.hidden then
        -- hidden frame: `continue;`
        fill_in_frames sh mode s.next max_nframes start_index end_index
          frames_decoded buf
      else
        -- `int index = end_index++;`
        let index := end_index
        if !mode.need_method_info && mode.get_caller_class &&
            index == start_index && m.caller_sensitive then
          ⟨.error .unsupportedCallerSensitive, end_index + 1, [], s, buf⟩
        else
          let buf' := s.fill_frame index buf m
          if max_nframes ≤ (frames_decoded + 1 : Int) then
            -- `if (++frames_decoded >= max_nframes) break;`
            ⟨.ok (frames_decoded + 1), end_index + 1, [f], s, buf'⟩
          else
            let out := fill_in_frames sh mode s.next max_nframes start_index
              (end_index + 1) (frames_decoded + 1) buf'
            { out with decoded := f :: out.decoded }
termination_by s.frames.length
decreasing_by
  all_goals
    rw [h]
    cases tl with
    | nil => simp [JavaFrameStream.next, h]
    | cons g tl2 =>
      simp only [JavaFrameStream.next, h]
      split <;> simp <;> omega

/-- The `SKIP_SYNTHETIC` loop of `fetchFirstBatch`: advance while the current
    method's holder is the walker's own type (or a direct subtype of the
    abstract walker). -/
def skip_walker_frames (s : JavaFrameStream) : JavaFrameStream :=
  match h : s.frames with
  | [] => s
  | f :: tl =>
    match f.method with
    | none => s
    | some m =>
      if m.holder_is_walker then skip_walker_frames s.next else s
termination_by s.frames.length
decreasing_by
  all_goals
    rw [h]
    cases tl with
    | nil => simp [JavaFrameStream.next, h]
    | cons g tl2 =>
      simp only [JavaFrameStream.next, h]
      split <;> simp <;> omega

/-- The `SKIP_REQUESTED` loop of `fetchFirstBatch`:
    `for (int n=0; n < skip_frames && !stream.at_end(); stream.next(), n++)`. -/
def skip_frames_n (s : JavaFrameStream) : Nat → JavaFrameStream
  | 0 => s
  | n + 1 => if s.at_end then s else skip_frames_n s.next n

/-- Result of `StackWalk::fetchFirstBatch` (and of `StackWalk::walk`). -/
structure FirstBatchOut where
  result : Except WalkError Nat
  end_index : Nat
  decoded : List Frame
  stream : JavaFrameStream
  buf : Buffer

/-- The reentrant call out to `AbstractStackWalker::doStackWalk`:
    orchestration logic it does not control may mutate the buffer and the
    suspended cursor (via `fetchNextBatch`/`setContinuation`) and returns
    either a result oop or a pending exception. -/
abbrev Callback := Buffer → JavaFrameStream →
  Buffer × JavaFrameStream × Except Nat Nat

/-- The suspension part of `fetchFirstBatch` once the first batch is in the
    buffer: install the guard token, call out to `doStackWalk`, then always
    clear the guard; a pending exception takes precedence, and a failed
    clear reports `CorruptedBuffer`. -/
def doCallAndCleanup (cb : Callback) (afterFill : FillOut) : FirstBatchOut :=
  let inst := setup_magic_on_entry afterFill.stream afterFill.buf
  let cbr := cb inst.2 inst.1
  let cl := cleanup_magic_on_exit cbr.2.1 cbr.1
  match cbr.2.2 with
  | .error e => ⟨.error (.other e), afterFill.end_index, afterFill.decoded,
                 cl.2.1, cl.2.2⟩
  | .ok res =>
    if cl.1 then
      ⟨.ok res, afterFill.end_index, afterFill.decoded, cl.2.1, cl.2.2⟩
    else
      ⟨.error .corruptedBuffer, afterFill.end_index, afterFill.decoded,
       cl.2.1, cl.2.2⟩

/-- `StackWalk::fetchFirstBatch`: skip the walker's own entry frames, skip
    `skip_frames` further frames, fill the first batch (failing with
    `DecodeFailure` when a non-exhausted cursor produced zero frames), then
    suspend into the call-out (`doCallAndCleanup`). -/
def fetchFirstBatch (sh : Bool) (mode : Mode) (s0 : JavaFrameStream)
    (skip_frames : Nat) (frame_count : Int) (start_index : Nat)
    (buf : Buffer) (cb : Callback) : FirstBatchOut :=
  let s2 := skip_frames_n (skip_walker_frames s0) skip_frames
  let afterFill : FillOut :=
    if s2.at_end then ⟨.ok 0, start_index, [], s2, buf⟩
    else fill_in_frames sh mode s2 frame_count start_index start_index 0 buf
  match afterFill.result with
  | .error e => ⟨.error e, afterFill.end_index, afterFill.decoded,
                 afterFill.stream, afterFill.buf⟩
  | .ok numFrames =>
    if !s2.at_end && numFrames < 1 then
      ⟨.error .decodeFailure, afterFill.end_index, afterFill.decoded,
       afterFill.stream, afterFill.buf⟩
    else
      doCallAndCleanup cb afterFill

/-- The address space of live cursor objects: what the cast
    `(BaseFrameStream*)(intptr_t)magic` can resolve. -/
abbrev Heap := Nat → Option JavaFrameStream

/-- `BaseFrameStream::from_current`: reject when the reserved slot does not
    hold the calling thread's `threadObj()`, when the token is zero, when no
    cursor lives at the token's address, or when the resolved cursor is not
    valid for this thread and buffer. -/
def from_current (heap : Heap) (jt : Nat) (magic : Int) (buf : Buffer) :
    Option (Nat × JavaFrameStream) :=
  if buf magic_pos != Slot.threadObj jt then none
  else if magic == 0 then none
  else
    match heap magic.toNat with
    | none => none
    | some s => if is_valid_in s jt buf then some (magic.toNat, s) else none

/-- Result of `StackWalk::fetchNextBatch`.  `result` carries the returned end
    index or the thrown exception; `decoded` is the ghost list of frames
    decoded by this call; `buf` and `heap` reflect all writes performed,
    also on the error paths. -/
structure NextBatchOut where
  result : Except WalkError Int
  decoded : List Frame
  buf : Buffer
  heap : Heap

/-- `StackWalk::fetchNextBatch`: resolve the suspended cursor from the token
    (failing closed with `CorruptedBuffer`), no-op on a non-positive frame
    count, otherwise advance past the last frame decoded in the previous
    batch and refill, failing with `DecodeFailure` when a non-exhausted
    cursor produced zero frames. -/
def fetchNextBatch (sh : Bool) (mode : Mode) (heap : Heap) (jt : Nat)
    (magic : Int) (frame_count : Int) (start_index : Nat) (buf : Buffer) :
    NextBatchOut :=
  match from_current heap jt magic buf with
  | none => ⟨.error .corruptedBuffer, [], buf, heap⟩
  | some (addr, stream) =>
    let end_index := start_index
    if frame_count ≤ 0 then
      -- `if (frame_count <= 0) return end_index;  // No operation.`
      ⟨.ok (end_index : Int), [], buf, heap⟩
    else if !stream.at_end then
      -- flush of deferred GC stack processing: external capability,
      -- no effect on the modelled state
      let s1 := stream.next
      if !s1.at_end then
        let out := fill_in_frames sh mode s1 frame_count start_index
          start_index 0 buf
        let heap' := Function.update heap addr (some out.stream)
        match out.result with
        | .error e => ⟨.error e, out.decoded, out.buf, heap'⟩
        | .ok n =>
          if n < 1 then ⟨.error .decodeFailure, out.decoded, out.buf, heap'⟩
          else ⟨.ok (out.end_index : Int), out.decoded, out.buf, heap'⟩
      else ⟨.ok (end_index : Int), [], buf, Function.update heap addr (some s1)⟩
    else ⟨.ok (end_index : Int), [], buf, heap⟩

/-- `JavaFrameStream::set_continuation`: store the new continuation handle in
    the base stream and rebuild the traversal from that continuation.
    `framesOfCont` is the external capability giving a continuation's frames
    (`vframeStream(continuation())`). -/
def JavaFrameStream.set_continuation (s : JavaFrameStream) (cont : Nat)
    (framesOfCont : Nat → List Frame) : JavaFrameStream :=
  { s with continuation := cont, frames := framesOfCont cont }

/-- `StackWalk::setContinuation`: resolve the cursor from the token (failing
    closed with `CorruptedBuffer`) and rebind its continuation. -/
def setContinuation (heap : Heap) (jt : Nat) (magic : Int) (buf : Buffer)
    (cont : Nat) (framesOfCont : Nat → List Frame) : Except WalkError Heap :=
  match from_current heap jt magic buf with
  | none => .error .corruptedBuffer
  | some (addr, s) =>
    .ok (Function.update heap addr (some (s.set_continuation cont framesOfCont)))

/-- The cursor-level core of `fetchNextBatch` once the guard has validated:
    no-op on a non-positive count or an exhausted cursor, otherwise advance
    past the last decoded frame and refill. -/
def nextBatchStep (sh : Bool) (mode : Mode) (s : JavaFrameStream)
    (buf : Buffer) (frame_count : Int) (start_index : Nat) :
    List Frame × JavaFrameStream × Buffer :=
  if frame_count ≤ 0 then ([], s, buf)
  else if !s.at_end then
    let s1 := s.next
    if !s1.at_end then
      let out := fill_in_frames sh mode s1 frame_count start_index
        start_index 0 buf
      (out.decoded, out.stream, out.buf)
    else ([], s1, buf)
  else ([], s, buf)

/-- Iterated later batches of one walk: each element of `batches` is the
    `(frame_count, start_index)` of one `fetchNextBatch` call; the result is
    the concatenation of the decoded frame lists. -/
def runBatches (sh : Bool) (mode : Mode) (s : JavaFrameStream) (buf : Buffer) :
    List (Int × Nat) → List Frame
  | [] => []
  | (c, st) :: rest =>
    (nextBatchStep sh mode s buf c st).1 ++
      runBatches sh mode (nextBatchStep sh mode s buf c st).2.1
        (nextBatchStep sh mode s buf c st).2.2 rest

/-- A full multi-batch walk of one cursor: the initial skips and first fill
    of `fetchFirstBatch`, then the later batches of `fetchNextBatch`;
    returns the concatenated decode sequence. -/
def runWalk (sh : Bool) (mode : Mode) (s0 : JavaFrameStream)
    (skip_frames : Nat) (first : Int × Nat) (batches : List (Int × Nat))
    (buf : Buffer) : List Frame :=
  let s2 := skip_frames_n (skip_walker_frames s0) skip_frames
  if s2.at_end then []
  else
    let out := fill_in_frames sh mode s2 first.1 first.2 first.2 0 buf
    out.decoded ++ runBatches sh mode out.stream out.buf batches

/-- The frames a later batch of the same cursor can still draw from: none
    when the cursor is exhausted, otherwise the frames past the one the
    cursor currently rests on (the last frame decoded in the previous
    batch). -/
def nextTail (s : JavaFrameStream) : List Frame :=
  if s.at_end then [] else s.next.frames

/-- The first frame the fill loop retains (does not skip): the first frame
    with a resolvable method that is not suppressed as hidden, following the
    cursor's own advance order. -/
def firstRetained (sh : Bool) (mode : Mode) (s : JavaFrameStream) :
    Option Method :=
  match h : s.frames with
  | [] => none
  | f :: tl =>
    match f.method with
    | none => firstRetained sh mode s.next
    | some m =>
      if !sh && (mode.skip_hidden_frames || mode.get_caller_class) && m.hidden then
        firstRetained sh mode s.next
      else some m
termination_by s.frames.length
decreasing_by
  all_goals
    rw [h]
    cases tl with
    | nil => simp [JavaFrameStream.next, h]
    | cons g tl2 =>
      simp only [JavaFrameStream.next, h]
      split <;> simp <;> omega

/-- One activation record as seen by the live cursor: additionally flags the
    continuation-entry boundary frame
    (`Continuation::is_continuation_entry_frame`). -/
structure LiveFrame where
  method : Option Method
  bci : Nat
  is_continuation_entry_frame : Bool
deriving DecidableEq, Repr

/-- External continuation capabilities (`java_lang_Continuation::scope` and
    `::parent`); oops are `Nat`, 0 = null. -/
structure ContEnv where
  scopeOf : Nat → Nat
  parentOf : Nat → Nat

/-- The live cursor `LiveFrameStream`: `_jvf` is the remaining suffix of
    java vframes ([] models a NULL `_jvf`, i.e. exhausted), `_cont` the
    active continuation, `_cont_scope` the requested scope (0 = unscoped). -/
structure LiveFrameStream where
  jvf : List LiveFrame
  cont : Nat
  cont_scope : Nat
deriving DecidableEq, Repr

def LiveFrameStream.at_end (s : LiveFrameStream) : Bool :=
  s.jvf.isEmpty

/-- `LiveFrameStream::next`: at a continuation-entry boundary frame,
    re-point the active continuation to the parent; if the walk is scoped to
    that continuation's scope, exhaust the cursor instead of proceeding into
    the parent; otherwise advance to the java sender. -/
def LiveFrameStream.next (env : ContEnv) (s : LiveFrameStream) :
    LiveFrameStream :=
  match s.jvf with
  | [] => s
  | f :: rest =>
    if s.cont != 0 && f.is_continuation_entry_frame then
      let scope := env.scopeOf s.cont
      let s1 := { s with cont := env.parentOf s.cont }
      if s.cont_scope != 0 && scope == s.cont_scope then
        { s1 with jvf := [] }
      else
        { s1 with jvf := rest }
    else
      { s with jvf := rest }

/-- The slot types a `StackValue` can carry into the live decoder. -/
inductive BasicType
  | T_INT | T_LONG | T_FLOAT | T_DOUBLE | T_BYTE | T_SHORT | T_CHAR
  | T_BOOLEAN | T_OBJECT | T_CONFLICT
deriving DecidableEq, Repr

/-- One slot of a `StackValueCollection`: its type tag, the raw full-width
    slot content read by `get_int()` (an `intptr_t`, 64-bit here), and the
    oop for object slots (0 = null). -/
structure StackValue where
  type : BasicType
  sval : Int
  oval : Nat
deriving DecidableEq, Repr

instance : Inhabited StackValue := ⟨⟨.T_CONFLICT, 0, 0⟩⟩

/-- sign-truncation of an `intptr_t` to a `jint` -/
def jintOf (v : Int) : Int := (v + 2 ^ 31) % 2 ^ 32 - 2 ^ 31

/-- Modelled from the spec: `StackValueCollection::int_at` belongs to the
    external frame decoder; it reads the raw content of slot `i` as a `jint`. -/
def int_at (values : List StackValue) (i : Int) : Int :=
  jintOf (values.getD i.toNat default).sval

/-- Modelled from the spec: `StackValueCollection::long_at` belongs to the
    external frame decoder; on a 64-bit platform the wide value of the
    two-slot pair starting at `i` is the raw content of slot `i + 1` (the
    preceding half-slot is a marker that is merged into it). -/
def long_at (values : List StackValue) (i : Int) : Int :=
  (values.getD (i + 1).toNat default).sval

/-- A boxed slot value produced by the live decoder
    (`PrimitiveSlot` of int or long width, or a pass-through object). -/
inductive Boxed
  | pInt (v : Int)
  | pLong (v : Int)
  | obj (o : Nat)
deriving DecidableEq, Repr

/-- reading a boxed wide value back -/
def Boxed.longValue : Boxed → Option Int
  | .pLong v => some v
  | _ => none

/-- `LiveFrameStream::create_primitive_slot_instance` (64-bit platform):
    box slot `i` of `values` according to `type`; object slots pass the oop
    through (a null oop yields no boxed instance); a pure conflict slot
    boxes as a zero-valued long; any other type is an internal error. -/
def create_primitive_slot_instance (values : List StackValue) (i : Int)
    (type : BasicType) : Except WalkError (Option Boxed) :=
  match type with
  | .T_INT => .ok (some (.pInt (int_at values i)))
  | .T_LONG => .ok (some (.pLong (long_at values i)))
  | .T_FLOAT | .T_DOUBLE | .T_BYTE | .T_SHORT | .T_CHAR | .T_BOOLEAN =>
    .error .internalDecodeError
  | .T_OBJECT =>
    let o := (values.getD i.toNat default).oval
    .ok (if o == 0 then none else some (.obj o))
  | .T_CONFLICT => .ok (some (.pLong 0))

/-- The body of the loop of `LiveFrameStream::values_to_object_array` at
    index `i` (64-bit platform): a slot that is neither an object nor a
    conflict holds a full-width primitive value; it is treated as a long and
    the fetch index is adjusted back by one so both halves are consumed as a
    unit. -/
def box_at (values : List StackValue) (i : Nat) : Except WalkError (Option Boxed) :=
  let st := values.getD i default
  let type := st.type
  let index : Int := (i : Int)
  if type ≠ .T_OBJECT ∧ type ≠ .T_CONFLICT then
    create_primitive_slot_instance values (index - 1) .T_LONG
  else
    create_primitive_slot_instance values index type

def values_to_object_array_go (values : List StackValue) (i : Nat) :
    Nat → Except WalkError (List (Option Boxed))
  | 0 => .ok []
  | n + 1 => do
    let b ← box_at values i
    let rest ← values_to_object_array_go values (i + 1) n
    .ok (b :: rest)

/-- `LiveFrameStream::values_to_object_array`: box every slot of the
    collection into the output object array. -/
def values_to_object_array (values : List StackValue) :
    Except WalkError (List (Option Boxed)) :=
  values_to_object_array_go values 0 values.length

theorem JavaFrameStream.next_frames_sublist (s : JavaFrameStream) (f : Frame)
    (rest : List Frame) (h : s.frames = f :: rest) :
    s.next.frames.Sublist rest := by
  cases rest with
  | nil => simp [JavaFrameStream.next, h]
  | cons g rest2 =>
    simp only [JavaFrameStream.next, h]
    split
    · exact List.sublist_cons_self g rest2
    · exact List.Sublist.refl _

theorem JavaFrameStream.next_frames_length_lt (s : JavaFrameStream)
    (h : s.frames ≠ []) : s.next.frames.length < s.frames.length := by
  match hf : s.frames with
  | [] => exact absurd hf h
  | f :: rest =>
    have := (JavaFrameStream.next_frames_sublist s f rest hf).length_le
    simp only [hf, List.length_cons]
    omega

theorem JavaFrameStream.next_frames_sublist_self (s : JavaFrameStream) :
    s.next.frames.Sublist s.frames := by
  match h : s.frames with
  | [] => simp [JavaFrameStream.next, h]
  | f :: rest =>
    exact (JavaFrameStream.next_frames_sublist s f rest h).trans
      (List.sublist_cons_self f rest)

/-- Main invariant of the fill loop: the decoded frames, followed by
    anything drawn from the frames a later batch can still reach, form a
    sublist of the frames the loop started from. -/
theorem fill_decoded_spec (sh : Bool) (mode : Mode) :
    ∀ (s : JavaFrameStream) (max : Int) (st endi fd : Nat) (buf : Buffer)
      (X : List Frame),
      X.Sublist (nextTail (fill_in_frames sh mode s max st endi fd buf).stream) →
      ((fill_in_frames sh mode s max st endi fd buf).decoded ++ X).Sublist
        s.frames := by
  intro s max st endi fd buf
  induction s, max, st, endi, fd, buf using fill_in_frames.induct sh mode with
  | case1 s max st endi fd buf h =>
    have hf : fill_in_frames sh mode s max st endi fd buf
        = ⟨.ok fd, endi, [], s, buf⟩ := by
      rw [fill_in_frames.eq_def, h]
    intro X hX
    rw [hf] at hX ⊢
    simp only [nextTail, JavaFrameStream.at_end, h, List.isEmpty_nil,
      if_true] at hX
    simp only [List.sublist_nil] at hX
    simp [hX, h]
  | case2 s max st endi fd buf f tail h hm ih =>
    have hf : fill_in_frames sh mode s max st endi fd buf
        = fill_in_frames sh mode s.next max st endi fd buf := by
      rw [fill_in_frames.eq_def, h]; simp [hm]
    intro X hX
    rw [hf] at hX ⊢
    exact (ih X hX).trans (JavaFrameStream.next_frames_sublist_self s)
  | case3 s max st endi fd buf f tail h m hm hc ih =>
    have hf : fill_in_frames sh mode s max st endi fd buf
        = fill_in_frames sh mode s.next max st endi fd buf := by
      rw [fill_in_frames.eq_def, h]; simp [hm, hc]
    intro X hX
    rw [hf] at hX ⊢
    exact (ih X hX).trans (JavaFrameStream.next_frames_sublist_self s)
  | case4 s max st endi fd buf f tail h m hm hc idx hcs =>
    have hf : fill_in_frames sh mode s max st endi fd buf
        = ⟨.error .unsupportedCallerSensitive, endi + 1, [], s, buf⟩ := by
      rw [fill_in_frames.eq_def, h]; simp [hm, hc, hcs]
    intro X hX
    rw [hf] at hX ⊢
    simp only [nextTail, JavaFrameStream.at_end, h, List.isEmpty_cons,
      if_false, Bool.false_eq_true] at hX
    simp only [List.nil_append]
    exact hX.trans (JavaFrameStream.next_frames_sublist_self s)
  | case5 s max st endi fd buf f tail h m hm hc idx hcs hbreak =>
    have hf : fill_in_frames sh mode s max st endi fd buf
        = ⟨.ok (fd + 1), endi + 1, [f], s, s.fill_frame endi buf m⟩ := by
      rw [fill_in_frames.eq_def, h]; simp [hm, hc, hcs, hbreak]
    intro X hX
    rw [hf] at hX ⊢
    simp only [nextTail, JavaFrameStream.at_end, h, List.isEmpty_cons,
      if_false, Bool.false_eq_true] at hX
    rw [h]
    exact List.Sublist.cons₂ f
      (hX.trans (JavaFrameStream.next_frames_sublist s f tail h))
  | case6 s max st endi fd buf f tail h m hm hc idx hcs bufp hbreak ih =>
    have hfs : (fill_in_frames sh mode s max st endi fd buf).stream
        = (fill_in_frames sh mode s.next max st (endi + 1) (fd + 1)
            (s.fill_frame endi buf m)).stream := by
      rw [fill_in_frames.eq_def, h]; simp [hm, hc, hcs, hbreak]
    have hfd : (fill_in_frames sh mode s max st endi fd buf).decoded
        = f :: (fill_in_frames sh mode s.next max st (endi + 1) (fd + 1)
            (s.fill_frame endi buf m)).decoded := by
      rw [fill_in_frames.eq_def, h]; simp [hm, hc, hcs, hbreak]
    intro X hX
    rw [hfs] at hX
    rw [hfd, h]
    exact List.Sublist.cons₂ f
      ((ih X hX).trans (JavaFrameStream.next_frames_sublist s f tail h))

theorem fill_decoded_sublist (sh : Bool) (mode : Mode) (s : JavaFrameStream)
    (max : Int) (st endi fd : Nat) (buf : Buffer) :
    (fill_in_frames sh mode s max st endi fd buf).decoded.Sublist s.frames := by
  have := fill_decoded_spec sh mode s max st endi fd buf [] (List.nil_sublist _)
  simpa using this

theorem runBatches_sublist (sh : Bool) (mode : Mode) :
    ∀ (bs : List (Int × Nat)) (s : JavaFrameStream) (buf : Buffer),
      (runBatches sh mode s buf bs).Sublist (nextTail s) := by
  intro bs
  induction bs with
  | nil => intro s buf; exact List.nil_sublist _
  | cons b rest ih =>
    intro s buf
    obtain ⟨c, st⟩ := b
    by_cases h0 : c ≤ 0
    · have hstep : nextBatchStep sh mode s buf c st = ([], s, buf) := by
        rw [nextBatchStep]; simp [h0]
      rw [runBatches, hstep]
      simpa using ih s buf
    · by_cases hend : s.at_end
      · have hstep : nextBatchStep sh mode s buf c st = ([], s, buf) := by
          rw [nextBatchStep]; simp [h0, hend]
        rw [runBatches, hstep]
        simpa using ih s buf
      · by_cases hend1 : s.next.at_end
        · have hstep : nextBatchStep sh mode s buf c st = ([], s.next, buf) := by
            rw [nextBatchStep]; simp [h0, hend, hend1]
          rw [runBatches, hstep]
          have h2 := ih s.next buf
          simp only [nextTail, hend1, if_true] at h2
          simp only [List.sublist_nil] at h2
          simp [h2]
        · have hstep : nextBatchStep sh mode s buf c st
              = ((fill_in_frames sh mode s.next c st st 0 buf).decoded,
                 (fill_in_frames sh mode s.next c st st 0 buf).stream,
                 (fill_in_frames sh mode s.next c st st 0 buf).buf) := by
            rw [nextBatchStep]; simp [h0, hend, hend1]
          rw [runBatches, hstep]
          have hrec := ih (fill_in_frames sh mode s.next c st st 0 buf).stream
            (fill_in_frames sh mode s.next c st st 0 buf).buf
          have := fill_decoded_spec sh mode s.next c st st 0 buf _ hrec
          simpa [nextTail, hend] using this

theorem skip_walker_frames_sublist (s : JavaFrameStream) :
    (skip_walker_frames s).frames.Sublist s.frames := by
  induction s using skip_walker_frames.induct with
  | case1 s h => rw [skip_walker_frames.eq_def, h]; rw [h]
  | case2 s f tail h hm =>
    rw [skip_walker_frames.eq_def, h]
    simp only [hm]
    exact h ▸ List.Sublist.refl _
  | case3 s f tail h m hm hw ih =>
    have hf : skip_walker_frames s = skip_walker_frames s.next := by
      rw [skip_walker_frames.eq_def, h]; simp [hm, hw]
    rw [hf]
    exact ih.trans (JavaFrameStream.next_frames_sublist_self s)
  | case4 s f tail h m hm hw =>
    rw [skip_walker_frames.eq_def, h]
    simp only [hm, hw, if_false]
    exact h ▸ List.Sublist.refl _

theorem skip_frames_n_sublist :
    ∀ (n : Nat) (s : JavaFrameStream),
      (skip_frames_n s n).frames.Sublist s.frames := by
  intro n
  induction n with
  | zero => intro s; rw [skip_frames_n]
  | succ n ih =>
    intro s
    rw [skip_frames_n]
    by_cases h : s.at_end
    · simp [h]
    · simp only [h, Bool.false_eq_true, if_false]
      exact (ih s.next).trans (JavaFrameStream.next_frames_sublist_self s)

theorem skip_frames_n_at_end :
    ∀ (n : Nat) (s : JavaFrameStream), s.frames.length ≤ n →
      (skip_frames_n s n).at_end = true := by
  intro n
  induction n with
  | zero =>
    intro s h
    rw [skip_frames_n]
    simp only [Nat.le_zero, List.length_eq_zero] at h
    simp [JavaFrameStream.at_end, h]
  | succ n ih =>
    intro s h
    rw [skip_frames_n]
    by_cases hend : s.at_end
    · simp [hend]
    · simp only [hend, Bool.false_eq_true, if_false]
      have hne : s.frames ≠ [] := by
        simpa [JavaFrameStream.at_end, List.isEmpty_iff] using hend
      have := JavaFrameStream.next_frames_length_lt s hne
      exact ih s.next (by omega)

/-- Counting, indexing and write-confinement facts of a successful fill:
    the returned count is the entry count plus the decoded frames; the end
    index advanced by exactly that many slots; no more frames are decoded
    than remain on the stack; the count never exceeds `max` (when the entry
    count was still below it); and only slots in `[endi, end_index)` are
    written. -/
theorem fill_ok_spec (sh : Bool) (mode : Mode) :
    ∀ (s : JavaFrameStream) (max : Int) (st endi fd : Nat) (buf : Buffer)
      (n : Nat),
      (fill_in_frames sh mode s max st endi fd buf).result = .ok n →
      n = fd + (fill_in_frames sh mode s max st endi fd buf).decoded.length ∧
      (fill_in_frames sh mode s max st endi fd buf).end_index
        = endi + (fill_in_frames sh mode s max st endi fd buf).decoded.length ∧
      (fill_in_frames sh mode s max st endi fd buf).decoded.length
        ≤ s.frames.length ∧
      ((fd : Int) < max → (n : Int) ≤ max) ∧
      ∀ j, j < endi ∨ (fill_in_frames sh mode s max st endi fd buf).end_index ≤ j →
        (fill_in_frames sh mode s max st endi fd buf).buf j = buf j := by
  intro s max st endi fd buf
  induction s, max, st, endi, fd, buf using fill_in_frames.induct sh mode with
  | case1 s max st endi fd buf h =>
    have hf : fill_in_frames sh mode s max st endi fd buf
        = ⟨.ok fd, endi, [], s, buf⟩ := by
      rw [fill_in_frames.eq_def, h]
    intro n hn
    rw [hf] at hn ⊢
    simp only [Except.ok.injEq] at hn
    refine ⟨by simp [hn], by simp, by simp, ?_, fun j _ => rfl⟩
    intro hlt
    omega
  | case2 s max st endi fd buf f tail h hm ih =>
    have hf : fill_in_frames sh mode s max st endi fd buf
        = fill_in_frames sh mode s.next max st endi fd buf := by
      rw [fill_in_frames.eq_def, h]; simp [hm]
    intro n hn
    rw [hf] at hn ⊢
    obtain ⟨h1, h2, h3, h4, h5⟩ := ih n hn
    refine ⟨h1, h2, ?_, h4, h5⟩
    have := JavaFrameStream.next_frames_length_lt s
      (by rw [h]; exact List.cons_ne_nil _ _)
    omega
  | case3 s max st endi fd buf f tail h m hm hc ih =>
    have hf : fill_in_frames sh mode s max st endi fd buf
        = fill_in_frames sh mode s.next max st endi fd buf := by
      rw [fill_in_frames.eq_def, h]; simp [hm, hc]
    intro n hn
    rw [hf] at hn ⊢
    obtain ⟨h1, h2, h3, h4, h5⟩ := ih n hn
    refine ⟨h1, h2, ?_, h4, h5⟩
    have := JavaFrameStream.next_frames_length_lt s
      (by rw [h]; exact List.cons_ne_nil _ _)
    omega
  | case4 s max st endi fd buf f tail h m hm hc idx hcs =>
    have hf : fill_in_frames sh mode s max st endi fd buf
        = ⟨.error .unsupportedCallerSensitive, endi + 1, [], s, buf⟩ := by
      rw [fill_in_frames.eq_def, h]; simp [hm, hc, hcs]
    intro n hn
    rw [hf] at hn
    exact absurd hn (by simp)
  | case5 s max st endi fd buf f tail h m hm hc idx hcs hbreak =>
    have hf : fill_in_frames sh mode s max st endi fd buf
        = ⟨.ok (fd + 1), endi + 1, [f], s, s.fill_frame endi buf m⟩ := by
      rw [fill_in_frames.eq_def, h]; simp [hm, hc, hcs, hbreak]
    intro n hn
    rw [hf] at hn ⊢
    simp only [Except.ok.injEq] at hn
    refine ⟨by simp [hn], by simp, by simp [h], ?_, ?_⟩
    · intro hlt
      omega
    · intro j hj
      have hj' : j ≠ endi := by
        simp only [List.length_cons, List.length_nil] at hj
        omega
      rw [JavaFrameStream.fill_frame]
      split <;> simp [Function.update_apply, hj']
  | case6 s max st endi fd buf f tail h m hm hc idx hcs bufp hbreak ih =>
    have hf : fill_in_frames sh mode s max st endi fd buf
        = { fill_in_frames sh mode s.next max st (endi + 1) (fd + 1) bufp with
            decoded := f :: (fill_in_frames sh mode s.next max st (endi + 1)
              (fd + 1) bufp).decoded } := by
      rw [fill_in_frames.eq_def, h]; simp [hm, hc, hcs, hbreak]
    intro n hn
    rw [hf] at hn ⊢
    simp only at hn
    obtain ⟨h1, h2, h3, h4, h5⟩ := ih n hn
    have hnext := (JavaFrameStream.next_frames_sublist s f tail h).length_le
    refine ⟨by simp only [List.length_cons]; omega,
            by simp only [List.length_cons]; omega,
            by simp only [List.length_cons, h]; simp; omega, ?_, ?_⟩
    · intro hlt
      exact h4 (by push_cast; omega)
    · intro j hj
      simp only [List.length_cons] at hj ⊢
      have hje := h5 j (by omega)
      rw [hje]
      have hj' : j ≠ endi := by omega
      have hbp : bufp = s.fill_frame endi buf m := rfl
      rw [hbp, JavaFrameStream.fill_frame]
      split <;> simp [Function.update_apply, hj']

/-- The fill loop throws only `UnsupportedCallerSensitive`. -/
theorem fill_error_ucs (sh : Bool) (mode : Mode) :
    ∀ (s : JavaFrameStream) (max : Int) (st endi fd : Nat) (buf : Buffer)
      (e : WalkError),
      (fill_in_frames sh mode s max st endi fd buf).result = .error e →
      e = .unsupportedCallerSensitive := by
  intro s max st endi fd buf
  induction s, max, st, endi, fd, buf using fill_in_frames.induct sh mode with
  | case1 s max st endi fd buf h =>
    intro e hn
    rw [fill_in_frames.eq_def, h] at hn
    exact absurd hn (by simp)
  | case2 s max st endi fd buf f tail h hm ih =>
    intro e hn
    rw [fill_in_frames.eq_def, h] at hn
    simp only [hm] at hn
    exact ih e hn
  | case3 s max st endi fd buf f tail h m hm hc ih =>
    intro e hn
    rw [fill_in_frames.eq_def, h] at hn
    simp only [hm, hc, if_true] at hn
    exact ih e hn
  | case4 s max st endi fd buf f tail h m hm hc idx hcs =>
    intro e hn
    rw [fill_in_frames.eq_def, h] at hn
    simp only [hm, hc, hcs, if_true, if_false] at hn
    simp at hn
    exact hn.symm
  | case5 s max st endi fd buf f tail h m hm hc idx hcs hbreak =>
    intro e hn
    rw [fill_in_frames.eq_def, h] at hn
    simp only [hm, hc, hcs, hbreak] at hn
    simp at hn
  | case6 s max st endi fd buf f tail h m hm hc idx hcs bufp hbreak ih =>
    intro e hn
    rw [fill_in_frames.eq_def, h] at hn
    simp only [hm, hc, hcs, hbreak] at hn
    simp at hn
    exact ih e hn

/-- Once the end index has moved past the start index, the fill loop can no
    longer throw `UnsupportedCallerSensitive` (the check is tied to the slot
    at `start_index`). -/
theorem fill_ucs_of_gt (sh : Bool) (mode : Mode) :
    ∀ (s : JavaFrameStream) (max : Int) (st endi fd : Nat) (buf : Buffer),
      st < endi →
      (fill_in_frames sh mode s max st endi fd buf).result
        ≠ .error .unsupportedCallerSensitive := by
  intro s max st endi fd buf
  induction s, max, st, endi, fd, buf using fill_in_frames.induct sh mode with
  | case1 s max st endi fd buf h =>
    intro hlt
    rw [fill_in_frames.eq_def, h]
    simp
  | case2 s max st endi fd buf f tail h hm ih =>
    intro hlt
    rw [fill_in_frames.eq_def, h]
    simp only [hm]
    exact ih hlt
  | case3 s max st endi fd buf f tail h m hm hc ih =>
    intro hlt
    rw [fill_in_frames.eq_def, h]
    simp only [hm, hc, if_true]
    exact ih hlt
  | case4 s max st endi fd buf f tail h m hm hc idx hcs =>
    intro hlt
    simp only [Bool.and_eq_true, beq_iff_eq] at hcs
    omega
  | case5 s max st endi fd buf f tail h m hm hc idx hcs hbreak =>
    intro hlt
    rw [fill_in_frames.eq_def, h]
    simp only [hm, hc, hcs, hbreak]
    simp [hcs, hbreak]
  | case6 s max st endi fd buf f tail h m hm hc idx hcs bufp hbreak ih =>
    intro hlt
    rw [fill_in_frames.eq_def, h]
    simp only [hm, hc, hcs, hbreak]
    simp only [if_false, if_neg hcs, if_neg hbreak]
    exact ih (by omega)

/-- With the fast path in effect and the end index still at the start
    index, the fill loop throws `UnsupportedCallerSensitive` exactly when
    the first retained frame's method is caller-sensitive. -/
theorem fill_ucs_iff_aux (sh : Bool) (mode : Mode)
    (hnmi : mode.need_method_info = false)
    (hgcc : mode.get_caller_class = true) :
    ∀ (s : JavaFrameStream) (max : Int) (st endi fd : Nat) (buf : Buffer),
      endi = st →
      ((fill_in_frames sh mode s max st endi fd buf).result
          = .error .unsupportedCallerSensitive
        ↔ ∃ m, firstRetained sh mode s = some m
            ∧ m.caller_sensitive = true) := by
  intro s max st endi fd buf
  induction s, max, st, endi, fd, buf using fill_in_frames.induct sh mode with
  | case1 s max st endi fd buf h =>
    intro he
    rw [fill_in_frames.eq_def, h, firstRetained.eq_def, h]
    simp
  | case2 s max st endi fd buf f tail h hm ih =>
    intro he
    rw [fill_in_frames.eq_def, h, firstRetained.eq_def, h]
    simp only [hm]
    exact ih he
  | case3 s max st endi fd buf f tail h m hm hc ih =>
    intro he
    rw [fill_in_frames.eq_def, h, firstRetained.eq_def, h]
    simp only [hm, hc, if_true]
    exact ih he
  | case4 s max st endi fd buf f tail h m hm hc idx hcs =>
    intro he
    have hfr : (fill_in_frames sh mode s max st endi fd buf).result
        = .error .unsupportedCallerSensitive := by
      rw [fill_in_frames.eq_def, h]; simp [hm, hc, hcs]
    have hfr2 : firstRetained sh mode s = some m := by
      rw [firstRetained.eq_def, h]; simp [hm, hc]
    have hcst : m.caller_sensitive = true := by
      simp only [Bool.and_eq_true] at hcs
      exact hcs.2
    rw [hfr, hfr2]
    simp [hcst]
  | case5 s max st endi fd buf f tail h m hm hc idx hcs hbreak =>
    intro he
    have hfr : (fill_in_frames sh mode s max st endi fd buf).result
        = .ok (fd + 1) := by
      rw [fill_in_frames.eq_def, h]; simp [hm, hc, hcs, hbreak]
    have hfr2 : firstRetained sh mode s = some m := by
      rw [firstRetained.eq_def, h]; simp [hm, hc]
    have hcsf : m.caller_sensitive = false := by
      rcases hb : m.caller_sensitive
      · rfl
      · exfalso
        apply hcs
        have hidx : idx = st := he
        simp [hnmi, hgcc, hb, hidx]
    rw [hfr, hfr2]
    simp [hcsf]
  | case6 s max st endi fd buf f tail h m hm hc idx hcs bufp hbreak ih =>
    intro he
    have hfr : (fill_in_frames sh mode s max st endi fd buf).result
        = (fill_in_frames sh mode s.next max st (endi + 1) (fd + 1)
            (s.fill_frame endi buf m)).result := by
      rw [fill_in_frames.eq_def, h]; simp [hm, hc, hcs, hbreak]
    have hfr2 : firstRetained sh mode s = some m := by
      rw [firstRetained.eq_def, h]; simp [hm, hc]
    have hcsf : m.caller_sensitive = false := by
      rcases hb : m.caller_sensitive
      · rfl
      · exfalso
        apply hcs
        have hidx : idx = st := he
        simp [hnmi, hgcc, hb, hidx]
    have hne := fill_ucs_of_gt sh mode s.next max st (endi + 1) (fd + 1)
      (s.fill_frame endi buf m) (by omega)
    rw [hfr, hfr2]
    simp [hcsf, hne]

theorem runWalk_sublist (sh : Bool) (mode : Mode) (s0 : JavaFrameStream)
    (skip : Nat) (first : Int × Nat) (batches : List (Int × Nat))
    (buf : Buffer) :
    (runWalk sh mode s0 skip first batches buf).Sublist s0.frames := by
  rw [runWalk]
  have hsub : (skip_frames_n (skip_walker_frames s0) skip).frames.Sublist
      s0.frames :=
    (skip_frames_n_sublist skip (skip_walker_frames s0)).trans
      (skip_walker_frames_sublist s0)
  by_cases h : (skip_frames_n (skip_walker_frames s0) skip).at_end
  · simp [h]
  · simp only [h, Bool.false_eq_true, if_false]
    exact (fill_decoded_spec sh mode _ first.1 first.2 first.2 0 buf _
      (runBatches_sublist sh mode batches _ _)).trans hsub


/-- The suspension step always ends with the reserved slot nulled and the
    anchor zeroed, leaves the batch outputs intact, and can only fail with
    `CorruptedBuffer` or the pending exception of the call-out. -/
theorem doCallAndCleanup_spec (cb : Callback) (afterFill : FillOut) :
    (doCallAndCleanup cb afterFill).buf magic_pos = Slot.null ∧
    (doCallAndCleanup cb afterFill).stream.anchor = 0 ∧
    (doCallAndCleanup cb afterFill).end_index = afterFill.end_index ∧
    (doCallAndCleanup cb afterFill).decoded = afterFill.decoded ∧
    ∀ e, (doCallAndCleanup cb afterFill).result = .error e →
      e = .corruptedBuffer ∨ ∃ x, e = .other x := by
  rw [doCallAndCleanup]
  rcases hcb : (cb (setup_magic_on_entry afterFill.stream afterFill.buf).2
      (setup_magic_on_entry afterFill.stream afterFill.buf).1).2.2 with e | res
  · simp only [hcb]
    refine ⟨?_, ?_, by trivial, by trivial, ?_⟩
    · simp [cleanup_magic_on_exit, Function.update_same]
    · simp [cleanup_magic_on_exit]
    · intro e' he'
      right
      exact ⟨e, by simpa using he'.symm⟩
  · simp only [hcb]
    split
    · refine ⟨?_, ?_, by trivial, by trivial, ?_⟩
      · simp [cleanup_magic_on_exit, Function.update_same]
      · simp [cleanup_magic_on_exit]
      · intro e' he'
        simp at he'
    · refine ⟨?_, ?_, by trivial, by trivial, ?_⟩
      · simp [cleanup_magic_on_exit, Function.update_same]
      · simp [cleanup_magic_on_exit]
      · intro e' he'
        left
        simpa using he'.symm

/-- A call-out that leaves the buffer and cursor untouched and returns
    normally validates at teardown, so the suspension step returns its
    result. -/
theorem doCallAndCleanup_benign (afterFill : FillOut) (r : Nat) :
    (doCallAndCleanup (fun b t => (b, t, .ok r)) afterFill).result
      = .ok r := by
  rw [doCallAndCleanup]
  simp [setup_magic_on_entry, cleanup_magic_on_exit, check_magic,
    Function.update_same]

/-- Classification of `fetchFirstBatch` outcomes: either the fill threw
    `UnsupportedCallerSensitive`, or the zero-frame check threw
    `DecodeFailure`, or the call-out to `doStackWalk` happened and teardown
    nulled the reserved slot and zeroed the anchor — also when the call-out
    left a pending exception — and any error is then `CorruptedBuffer` or
    the pending exception itself. -/
theorem fetchFirstBatch_result_cases (sh : Bool) (mode : Mode)
    (s0 : JavaFrameStream) (skip : Nat) (c : Int) (start : Nat)
    (buf : Buffer) (cb : Callback) :
    (fetchFirstBatch sh mode s0 skip c start buf cb).result
        = .error .unsupportedCallerSensitive ∨
    (fetchFirstBatch sh mode s0 skip c start buf cb).result
        = .error .decodeFailure ∨
    ((fetchFirstBatch sh mode s0 skip c start buf cb).buf magic_pos
        = Slot.null ∧
     (fetchFirstBatch sh mode s0 skip c start buf cb).stream.anchor = 0 ∧
     ∀ e, (fetchFirstBatch sh mode s0 skip c start buf cb).result = .error e →
       e = .corruptedBuffer ∨ ∃ x, e = .other x) := by
  by_cases hend : (skip_frames_n (skip_walker_frames s0) skip).at_end
  · have hf : fetchFirstBatch sh mode s0 skip c start buf cb
        = doCallAndCleanup cb
            ⟨.ok 0, start, [], skip_frames_n (skip_walker_frames s0) skip,
             buf⟩ := by
      rw [fetchFirstBatch]
      simp [hend]
    rw [hf]
    have h := doCallAndCleanup_spec cb
      ⟨.ok 0, start, [], skip_frames_n (skip_walker_frames s0) skip, buf⟩
    exact Or.inr (Or.inr ⟨h.1, h.2.1, h.2.2.2.2⟩)
  · rcases hres : (fill_in_frames sh mode
        (skip_frames_n (skip_walker_frames s0) skip) c start start 0
        buf).result with e | n
    · have he := fill_error_ucs sh mode
        (skip_frames_n (skip_walker_frames s0) skip) c start start 0 buf e hres
      have hf : (fetchFirstBatch sh mode s0 skip c start buf cb).result
          = .error e := by
        rw [fetchFirstBatch]
        simp [hend, hres]
      left
      rw [hf, he]
    · by_cases hn : n < 1
      · have hf : (fetchFirstBatch sh mode s0 skip c start buf cb).result
            = .error .decodeFailure := by
          rw [fetchFirstBatch]
          simp [hend, hres, hn]
        right
        left
        exact hf
      · have hf : fetchFirstBatch sh mode s0 skip c start buf cb
            = doCallAndCleanup cb (fill_in_frames sh mode
                (skip_frames_n (skip_walker_frames s0) skip) c start start 0
                buf) := by
          rw [fetchFirstBatch]
          simp [hend, hres, hn]
        rw [hf]
        have h := doCallAndCleanup_spec cb (fill_in_frames sh mode
          (skip_frames_n (skip_walker_frames s0) skip) c start start 0 buf)
        exact Or.inr (Or.inr ⟨h.1, h.2.1, h.2.2.2.2⟩)

/-- C4: at a continuation-entry boundary frame of a live cursor, a walk
    scoped to the active continuation's scope exhausts the cursor instead of
    proceeding into the parent; an unscoped walk (or one scoped elsewhere)
    re-points the active continuation to the parent and continues into it. -/
theorem C4_boundary_advance (env : ContEnv) (s : LiveFrameStream)
    (f : LiveFrame) (rest : List LiveFrame)
    (hj : s.jvf = f :: rest) (hb : f.is_continuation_entry_frame = true)
    (hc : s.cont ≠ 0) :
    ((s.cont_scope ≠ 0 ∧ env.scopeOf s.cont = s.cont_scope) →
      (LiveFrameStream.next env s).at_end = true) ∧
    ((s.cont_scope = 0 ∨ env.scopeOf s.cont ≠ s.cont_scope) →
      (LiveFrameStream.next env s).cont = env.parentOf s.cont ∧
      (LiveFrameStream.next env s).jvf = rest) := by
  constructor
  · rintro ⟨h1, h2⟩
    simp [LiveFrameStream.next, LiveFrameStream.at_end, hj, hb, hc, h1, h2]
  · intro hdisj
    have hcond : (s.cont_scope != 0 && env.scopeOf s.cont == s.cont_scope)
        = false := by
      rcases hdisj with h | h <;> simp [h]
    simp [LiveFrameStream.next, hj, hb, hc, hcond]

theorem C4_witness :
    (LiveFrameStream.next ⟨fun _ => 7, fun _ => 3⟩
        ⟨[⟨none, 0, true⟩, ⟨none, 1, false⟩], 5, 7⟩).at_end = true ∧
    ((LiveFrameStream.next ⟨fun _ => 7, fun _ => 3⟩
        ⟨[⟨none, 0, true⟩, ⟨none, 1, false⟩], 5, 0⟩).cont = 3 ∧
     (LiveFrameStream.next ⟨fun _ => 7, fun _ => 3⟩
        ⟨[⟨none, 0, true⟩, ⟨none, 1, false⟩], 5, 0⟩).jvf = [⟨none, 1, false⟩]) :=
  ⟨(C4_boundary_advance ⟨fun _ => 7, fun _ => 3⟩
      ⟨[⟨none, 0, true⟩, ⟨none, 1, false⟩], 5, 7⟩ ⟨none, 0, true⟩
      [⟨none, 1, false⟩] rfl rfl (by decide)).1 ⟨by decide, rfl⟩,
   (C4_boundary_advance ⟨fun _ => 7, fun _ => 3⟩
      ⟨[⟨none, 0, true⟩, ⟨none, 1, false⟩], 5, 0⟩ ⟨none, 0, true⟩
      [⟨none, 1, false⟩] rfl rfl (by decide)).2 (Or.inl rfl)⟩

/-- `from_current` fails closed on a zero token, a reserved slot that does
    not hold the calling thread's thread object, or a token that does not
    resolve to a matching live cursor (wrong owner, cleared anchor, or a
    reserved slot mutated away from the owner's thread object). -/
theorem from_current_none_of_bad (heap : Heap) (jt : Nat) (magic : Int)
    (buf : Buffer)
    (hbad : magic = 0 ∨ buf magic_pos ≠ Slot.threadObj jt ∨
      ∀ s, heap magic.toNat = some s →
        s.thread ≠ jt ∨ s.anchor ≠ (s.addr : Int) ∨
        buf magic_pos ≠ Slot.threadObj s.thread) :
    from_current heap jt magic buf = none := by
  rcases hbad with h0 | h0 | h0
  · rw [from_current]
    by_cases hb : buf magic_pos = Slot.threadObj jt
    · simp [hb, h0]
    · simp [hb]
  · rw [from_current]
    simp [h0]
  · rw [from_current]
    by_cases hb : buf magic_pos = Slot.threadObj jt
    · by_cases h0m : magic = 0
      · simp [hb, h0m]
      · cases hh : heap magic.toNat with
        | none => simp [hb, h0m, hh]
        | some s =>
          have hval : is_valid_in s jt buf = false := by
            rw [is_valid_in, check_magic]
            rcases h0 s hh with h1 | h1 | h1 <;> simp [h1]
          simp [hb, h0m, hh, hval]
    · simp [hb]

/-- C1: presenting a zero token, a token for a missing or stale cursor, a
    token owned by a different thread, or a buffer whose reserved slot was
    mutated makes both `fetchNextBatch` and `setContinuation` fail with
    `CorruptedBuffer`; no frame is decoded and neither the buffer nor the
    cursor heap is touched. -/
theorem C1_invalid_token_fails_closed (sh : Bool) (mode : Mode) (heap : Heap)
    (jt : Nat) (magic : Int) (frame_count : Int) (start_index : Nat)
    (buf : Buffer) (cont : Nat) (framesOfCont : Nat → List Frame)
    (hbad : magic = 0 ∨ buf magic_pos ≠ Slot.threadObj jt ∨
      ∀ s, heap magic.toNat = some s →
        s.thread ≠ jt ∨ s.anchor ≠ (s.addr : Int) ∨
        buf magic_pos ≠ Slot.threadObj s.thread) :
    fetchNextBatch sh mode heap jt magic frame_count start_index buf
      = ⟨.error .corruptedBuffer, [], buf, heap⟩ ∧
    setContinuation heap jt magic buf cont framesOfCont
      = .error .corruptedBuffer := by
  have hfc := from_current_none_of_bad heap jt magic buf hbad
  constructor
  · rw [fetchNextBatch, hfc]
  · rw [setContinuation, hfc]

theorem C1_witness :
    fetchNextBatch false ⟨false, false, false, false⟩ (fun _ => none) 1 0 5 2
        (fun _ => Slot.null)
      = ⟨.error .corruptedBuffer, [], (fun _ => Slot.null), (fun _ => none)⟩ ∧
    setContinuation (fun _ => none) 1 0 (fun _ => Slot.null) 4 (fun _ => [])
      = .error .corruptedBuffer :=
  C1_invalid_token_fails_closed false ⟨false, false, false, false⟩
    (fun _ => none) 1 0 5 2 (fun _ => Slot.null) 4 (fun _ => [])
    (Or.inl rfl)

/-- C10: a `fetchNextBatch` call that presents a valid token together with a
    non-positive frame count returns `start_index` as the end index and is a
    no-op: no frame is decoded, and neither the buffer, the cursor, nor the
    heap is changed. -/
theorem C10_nonpositive_count_noop (sh : Bool) (mode : Mode) (heap : Heap)
    (jt : Nat) (magic : Int) (frame_count : Int) (start_index : Nat)
    (buf : Buffer) (addr : Nat) (s : JavaFrameStream)
    (hvalid : from_current heap jt magic buf = some (addr, s))
    (hc : frame_count ≤ 0) :
    fetchNextBatch sh mode heap jt magic frame_count start_index buf
      = ⟨.ok (start_index : Int), [], buf, heap⟩ := by
  rw [fetchNextBatch, hvalid]
  simp [hc]

theorem C10_witness :
    fetchNextBatch false ⟨false, false, false, false⟩
        (fun a => if a = 42 then some ⟨[], 1, 0, 42, 42, true⟩ else none)
        1 42 0 2
        (fun i => if i = 0 then Slot.threadObj 1 else Slot.null)
      = ⟨.ok 2, [],
         (fun i => if i = 0 then Slot.threadObj 1 else Slot.null),
         (fun a => if a = 42 then some ⟨[], 1, 0, 42, 42, true⟩ else none)⟩ :=
  C10_nonpositive_count_noop false ⟨false, false, false, false⟩
    (fun a => if a = 42 then some ⟨[], 1, 0, 42, 42, true⟩ else none)
    1 42 0 2 (fun i => if i = 0 then Slot.threadObj 1 else Slot.null)
    42 ⟨[], 1, 0, 42, 42, true⟩ (by rfl) (by decide)

/-- C3: across a multi-batch walk of one cursor — the first fill followed by
    any sequence of `fetchNextBatch` steps, each of which advances past the
    last frame decoded in the previous batch before refilling — the
    concatenated decode sequence is a sublist of the walked stack (strict
    top-to-bottom order), and duplicate-free whenever the stack's
    (method, bci) records are. -/
theorem C3_no_double_decode (sh : Bool) (mode : Mode) (s0 : JavaFrameStream)
    (skip : Nat) (first : Int × Nat) (batches : List (Int × Nat))
    (buf : Buffer) (hnd : s0.frames.Nodup) :
    (runWalk sh mode s0 skip first batches buf).Sublist s0.frames ∧
    (runWalk sh mode s0 skip first batches buf).Nodup :=
  ⟨runWalk_sublist sh mode s0 skip first batches buf,
   hnd.sublist (runWalk_sublist sh mode s0 skip first batches buf)⟩

theorem C3_witness :
    (runWalk false ⟨true, false, true, false⟩
        ⟨[⟨some ⟨1, false, false, false, 11, false⟩, 10⟩,
          ⟨some ⟨2, false, false, false, 12, false⟩, 20⟩,
          ⟨some ⟨3, false, false, false, 13, false⟩, 30⟩,
          ⟨some ⟨4, false, false, false, 14, false⟩, 40⟩], 9, 0, 0, 77, true⟩
        0 (2, 2) [(2, 4)] (fun _ => Slot.null)).Sublist
      [⟨some ⟨1, false, false, false, 11, false⟩, 10⟩,
       ⟨some ⟨2, false, false, false, 12, false⟩, 20⟩,
       ⟨some ⟨3, false, false, false, 13, false⟩, 30⟩,
       ⟨some ⟨4, false, false, false, 14, false⟩, 40⟩] ∧
    (runWalk false ⟨true, false, true, false⟩
        ⟨[⟨some ⟨1, false, false, false, 11, false⟩, 10⟩,
          ⟨some ⟨2, false, false, false, 12, false⟩, 20⟩,
          ⟨some ⟨3, false, false, false, 13, false⟩, 30⟩,
          ⟨some ⟨4, false, false, false, 14, false⟩, 40⟩], 9, 0, 0, 77, true⟩
        0 (2, 2) [(2, 4)] (fun _ => Slot.null)).Nodup :=
  C3_no_double_decode false ⟨true, false, true, false⟩
    ⟨[⟨some ⟨1, false, false, false, 11, false⟩, 10⟩,
      ⟨some ⟨2, false, false, false, 12, false⟩, 20⟩,
      ⟨some ⟨3, false, false, false, 13, false⟩, 30⟩,
      ⟨some ⟨4, false, false, false, 14, false⟩, 40⟩], 9, 0, 0, 77, true⟩
    0 (2, 2) [(2, 4)] (fun _ => Slot.null) (by decide)

/-- C7: a successful fill never decodes more frames than the requested batch
    size nor than remain on the stack, advances the end index by exactly the
    decoded count, and writes only the buffer slots in
    `[start_index, end_index)` — every other slot is left unchanged (the
    reserved slot 0 is written only by the guard install, not by the fill). -/
theorem C7_fill_bounds (sh : Bool) (mode : Mode) (s : JavaFrameStream)
    (max : Int) (start : Nat) (buf : Buffer) (n : Nat)
    (hmax : 0 < max)
    (hok : (fill_in_frames sh mode s max start start 0 buf).result = .ok n) :
    (n : Int) ≤ max ∧ n ≤ s.frames.length ∧
    (fill_in_frames sh mode s max start start 0 buf).end_index = start + n ∧
    ∀ j, j < start ∨ start + n ≤ j →
      (fill_in_frames sh mode s max start start 0 buf).buf j = buf j := by
  obtain ⟨h1, h2, h3, h4, h5⟩ := fill_ok_spec sh mode s max start start 0 buf
    n hok
  refine ⟨h4 (by exact_mod_cast hmax), by omega, by omega, ?_⟩
  intro j hj
  exact h5 j (by omega)

theorem C7_witness :
    ((2 : Nat) : Int) ≤ 2 ∧
    (2 : Nat) ≤ (JavaFrameStream.mk
      [⟨some ⟨1, false, false, false, 11, false⟩, 10⟩,
       ⟨some ⟨2, false, false, false, 12, false⟩, 20⟩,
       ⟨some ⟨3, false, false, false, 13, false⟩, 30⟩] 9 0 0 77
      true).frames.length ∧
    (fill_in_frames false ⟨true, false, true, false⟩
      (JavaFrameStream.mk
        [⟨some ⟨1, false, false, false, 11, false⟩, 10⟩,
         ⟨some ⟨2, false, false, false, 12, false⟩, 20⟩,
         ⟨some ⟨3, false, false, false, 13, false⟩, 30⟩] 9 0 0 77 true)
      2 2 2 0 (fun _ => Slot.null)).end_index = 2 + 2 ∧
    (fill_in_frames false ⟨true, false, true, false⟩
      (JavaFrameStream.mk
        [⟨some ⟨1, false, false, false, 11, false⟩, 10⟩,
         ⟨some ⟨2, false, false, false, 12, false⟩, 20⟩,
         ⟨some ⟨3, false, false, false, 13, false⟩, 30⟩] 9 0 0 77 true)
      2 2 2 0 (fun _ => Slot.null)).buf 7 = (fun _ => Slot.null) 7 := by
  have h := C7_fill_bounds false ⟨true, false, true, false⟩
    (JavaFrameStream.mk
      [⟨some ⟨1, false, false, false, 11, false⟩, 10⟩,
       ⟨some ⟨2, false, false, false, 12, false⟩, 20⟩,
       ⟨some ⟨3, false, false, false, 13, false⟩, 30⟩] 9 0 0 77 true)
    2 2 (fun _ => Slot.null) 2 (by decide)
    (by simp [fill_in_frames, JavaFrameStream.next,
      JavaFrameStream.fill_frame])
  exact ⟨h.1, h.2.1, h.2.2.1, h.2.2.2 7 (by decide)⟩

/-- C2: with the fast path in effect (declaring-type-only decoding for
    `getCallerClass`), a fresh batch fails with
    `UnsupportedCallerSensitive` exactly when the first retained frame — the
    one decoded into `start_index` — has a caller-sensitive method; once the
    end index has moved past `start_index`, a caller-sensitive method at a
    later index can no longer trigger the failure. -/
theorem C2_fast_path_caller_sensitive (sh : Bool) (mode : Mode)
    (s : JavaFrameStream) (max : Int) (start : Nat) (buf : Buffer)
    (endi fd : Nat)
    (hnmi : mode.need_method_info = false)
    (hgcc : mode.get_caller_class = true) :
    ((fill_in_frames sh mode s max start start 0 buf).result
        = .error .unsupportedCallerSensitive
      ↔ ∃ m, firstRetained sh mode s = some m ∧ m.caller_sensitive = true) ∧
    (start < endi →
      (fill_in_frames sh mode s max start endi fd buf).result
        ≠ .error .unsupportedCallerSensitive) :=
  ⟨fill_ucs_iff_aux sh mode hnmi hgcc s max start start 0 buf rfl,
   fun hlt => fill_ucs_of_gt sh mode s max start endi fd buf hlt⟩

theorem C2_witness :
    ((fill_in_frames false ⟨false, true, true, false⟩
        (JavaFrameStream.mk
          [⟨some ⟨1, false, true, false, 11, false⟩, 10⟩] 9 0 0 77 false)
        5 2 2 0 (fun _ => Slot.null)).result
        = .error .unsupportedCallerSensitive
      ↔ ∃ m, firstRetained false ⟨false, true, true, false⟩
          (JavaFrameStream.mk
            [⟨some ⟨1, false, true, false, 11, false⟩, 10⟩] 9 0 0 77 false)
          = some m ∧ m.caller_sensitive = true) ∧
    (fill_in_frames false ⟨false, true, true, false⟩
        (JavaFrameStream.mk
          [⟨some ⟨1, false, true, false, 11, false⟩, 10⟩] 9 0 0 77 false)
        5 2 3 0 (fun _ => Slot.null)).result
      ≠ .error .unsupportedCallerSensitive := by
  have h := C2_fast_path_caller_sensitive false ⟨false, true, true, false⟩
    (JavaFrameStream.mk
      [⟨some ⟨1, false, true, false, 11, false⟩, 10⟩] 9 0 0 77 false)
    5 2 (fun _ => Slot.null) 3 0 rfl rfl
  exact ⟨h.1, h.2 (by decide)⟩

/-- C6: the fill loop skips a frame with no resolvable method without
    counting it, and under hidden-frame suppression (ShowHiddenFrames unset
    with the default skip-hidden option or `getCallerClass`) it skips a
    hidden method without counting it; the stack [A, B(hidden), C] walked
    with skip 0 and batch size 10 decodes exactly [A, C]. -/
theorem C6_skip_unresolvable_and_hidden (sh : Bool) (mode : Mode) :
    (∀ (s : JavaFrameStream) (max : Int) (st endi fd : Nat) (buf : Buffer)
       (f : Frame) (tl : List Frame),
       s.frames = f :: tl → f.method = none →
       fill_in_frames sh mode s max st endi fd buf
         = fill_in_frames sh mode s.next max st endi fd buf) ∧
    (∀ (s : JavaFrameStream) (max : Int) (st endi fd : Nat) (buf : Buffer)
       (f : Frame) (tl : List Frame) (m : Method),
       s.frames = f :: tl → f.method = some m → sh = false →
       (mode.skip_hidden_frames = true ∨ mode.get_caller_class = true) →
       m.hidden = true →
       fill_in_frames sh mode s max st endi fd buf
         = fill_in_frames sh mode s.next max st endi fd buf) ∧
    (fetchFirstBatch false ⟨true, false, true, false⟩
        ⟨[⟨some ⟨1, false, false, false, 11, false⟩, 10⟩,
          ⟨some ⟨2, true, false, false, 12, false⟩, 20⟩,
          ⟨some ⟨3, false, false, false, 13, false⟩, 30⟩], 9, 0, 0, 77, true⟩
        0 10 2 (fun _ => Slot.null) (fun b t => (b, t, .ok 0))).decoded
      = [⟨some ⟨1, false, false, false, 11, false⟩, 10⟩,
         ⟨some ⟨3, false, false, false, 13, false⟩, 30⟩] := by
  refine ⟨?_, ?_, ?_⟩
  · intro s max st endi fd buf f tl h hm
    rw [fill_in_frames.eq_def, h]
    simp [hm]
  · intro s max st endi fd buf f tl m h hm hsh hflag hh
    rw [fill_in_frames.eq_def, h]
    have hc : (!sh && (mode.skip_hidden_frames || mode.get_caller_class)
        && m.hidden) = true := by
      rcases hflag with hf | hf <;> simp [hsh, hf, hh]
    simp [hm, hc]
  · simp [fetchFirstBatch, doCallAndCleanup, skip_walker_frames,
      skip_frames_n, JavaFrameStream.at_end, fill_in_frames,
      JavaFrameStream.next, JavaFrameStream.fill_frame, setup_magic_on_entry,
      cleanup_magic_on_exit, check_magic]

theorem C6_witness :
    (fill_in_frames false ⟨true, false, true, false⟩
        (JavaFrameStream.mk
          [⟨none, 5⟩, ⟨some ⟨3, false, false, false, 13, false⟩, 30⟩]
          9 0 0 77 true) 10 2 2 0 (fun _ => Slot.null)
      = fill_in_frames false ⟨true, false, true, false⟩
        (JavaFrameStream.mk
          [⟨none, 5⟩, ⟨some ⟨3, false, false, false, 13, false⟩, 30⟩]
          9 0 0 77 true).next 10 2 2 0 (fun _ => Slot.null)) ∧
    (fill_in_frames false ⟨true, false, true, false⟩
        (JavaFrameStream.mk
          [⟨some ⟨2, true, false, false, 12, false⟩, 20⟩,
           ⟨some ⟨3, false, false, false, 13, false⟩, 30⟩]
          9 0 0 77 true) 10 2 2 0 (fun _ => Slot.null)
      = fill_in_frames false ⟨true, false, true, false⟩
        (JavaFrameStream.mk
          [⟨some ⟨2, true, false, false, 12, false⟩, 20⟩,
           ⟨some ⟨3, false, false, false, 13, false⟩, 30⟩]
          9 0 0 77 true).next 10 2 2 0 (fun _ => Slot.null)) ∧
    (fetchFirstBatch false ⟨true, false, true, false⟩
        ⟨[⟨some ⟨1, false, false, false, 11, false⟩, 10⟩,
          ⟨some ⟨2, true, false, false, 12, false⟩, 20⟩,
          ⟨some ⟨3, false, false, false, 13, false⟩, 30⟩], 9, 0, 0, 77, true⟩
        0 10 2 (fun _ => Slot.null) (fun b t => (b, t, .ok 0))).decoded
      = [⟨some ⟨1, false, false, false, 11, false⟩, 10⟩,
         ⟨some ⟨3, false, false, false, 13, false⟩, 30⟩] := by
  have h := C6_skip_unresolvable_and_hidden false ⟨true, false, true, false⟩
  exact ⟨h.1 _ 10 2 2 0 _ ⟨none, 5⟩
           [⟨some ⟨3, false, false, false, 13, false⟩, 30⟩] rfl rfl,
         h.2.1 _ 10 2 2 0 _ ⟨some ⟨2, true, false, false, 12, false⟩, 20⟩
           [⟨some ⟨3, false, false, false, 13, false⟩, 30⟩]
           ⟨2, true, false, false, 12, false⟩ rfl rfl rfl (Or.inl rfl) rfl,
         h.2.2⟩

theorem box_at_never_errors (values : List StackValue) (i : Nat) :
    ∃ b, box_at values i = .ok b := by
  simp only [box_at]
  cases ht : (values.getD i default).type <;>
    simp [create_primitive_slot_instance]

theorem values_to_object_array_go_spec (values : List StackValue) :
    ∀ (n i : Nat), ∃ arr, values_to_object_array_go values i n = .ok arr ∧
      arr.length = n ∧
      ∀ k, k < n → ∃ b, box_at values (i + k) = .ok b ∧ arr.getD k none = b := by
  intro n
  induction n with
  | zero =>
    intro i
    exact ⟨[], rfl, rfl, fun k hk => absurd hk (by omega)⟩
  | succ n ih =>
    intro i
    obtain ⟨b, hb⟩ := box_at_never_errors values i
    obtain ⟨arr, harr, hlen, hk⟩ := ih (i + 1)
    refine ⟨b :: arr, ?_, by simp [hlen], ?_⟩
    · rw [values_to_object_array_go, hb]
      show (do
        let rest ← values_to_object_array_go values (i + 1) n
        (.ok (b :: rest) : Except WalkError (List (Option Boxed)))) = _
      rw [harr]
      rfl
    · intro k hkn
      cases k with
      | zero => exact ⟨b, by simpa using hb, rfl⟩
      | succ k' =>
        obtain ⟨b', hb', hget⟩ := hk k' (by omega)
        refine ⟨b', ?_, by simpa using hget⟩
        rw [show i + (k' + 1) = i + 1 + k' by omega]
        exact hb'

/-- C8: a wide (two-slot) primitive value decoded by the live decoder boxes
    as the wide integer read from the value slot — the fetch index is
    adjusted back by one so the half-slot pair is consumed as a unit — and
    reading the boxed value back yields the original slot value exactly,
    independent of what half-slot marker precedes it. -/
theorem C8_wide_slot_roundtrip (values : List StackValue) (i : Nat)
    (hi : i < values.length)
    (hto : (values.getD i default).type ≠ .T_OBJECT)
    (htc : (values.getD i default).type ≠ .T_CONFLICT) :
    ∃ arr, values_to_object_array values = .ok arr ∧
      arr.getD i none = some (.pLong (values.getD i default).sval) ∧
      (arr.getD i none).bind Boxed.longValue
        = some (values.getD i default).sval ∧
      ∀ w, 1 ≤ i → box_at (values.set (i - 1) w) i = box_at values i := by
  have htoNat : ((i : Int) - 1 + 1).toNat = i := by omega
  have hbox : box_at values i
      = .ok (some (.pLong (values.getD i default).sval)) := by
    simp only [box_at]
    rw [if_pos ⟨hto, htc⟩]
    simp only [create_primitive_slot_instance, long_at]
    rw [htoNat]
  obtain ⟨arr, harr, hlen, hk⟩ := values_to_object_array_go_spec values
    values.length 0
  obtain ⟨b, hb, hget⟩ := hk i hi
  rw [Nat.zero_add, hbox] at hb
  have hbeq : b = some (.pLong (values.getD i default).sval) := by
    simpa using hb.symm
  refine ⟨arr, ?_, ?_, ?_, ?_⟩
  · rw [values_to_object_array]
    exact harr
  · rw [hget, hbeq]
  · rw [hget, hbeq]
    rfl
  · intro w h1
    have hgd : (values.set (i - 1) w).getD i default
        = values.getD i default := by
      simp [List.getD_eq_getElem?_getD,
        List.getElem?_set_ne (by omega : i - 1 ≠ i)]
    simp only [box_at, hgd]
    rw [if_pos ⟨hto, htc⟩, if_pos ⟨hto, htc⟩]
    simp only [create_primitive_slot_instance, long_at]
    rw [htoNat, hgd]

theorem C8_witness :
    ∃ arr, values_to_object_array
        [⟨.T_CONFLICT, 99, 0⟩, ⟨.T_INT, 123456789012, 0⟩] = .ok arr ∧
      arr.getD 1 none = some (.pLong 123456789012) ∧
      (arr.getD 1 none).bind Boxed.longValue = some 123456789012 ∧
      ∀ w, 1 ≤ 1 →
        box_at ([⟨.T_CONFLICT, 99, 0⟩,
                 ⟨.T_INT, 123456789012, 0⟩].set 0 w) 1
          = box_at [⟨.T_CONFLICT, 99, 0⟩, ⟨.T_INT, 123456789012, 0⟩] 1 := by
  have h := C8_wide_slot_roundtrip
    [⟨.T_CONFLICT, 99, 0⟩, ⟨.T_INT, 123456789012, 0⟩] 1
    (by decide) (by decide) (by decide)
  simpa using h

/-- C9: the guard's clear operation always wipes the reserved slot 0 and
    zeroes the recorded anchor, and returns whether the guard state was
    still valid at the moment of clearing; every `fetchFirstBatch` run that
    reaches teardown — also one terminated by an error or by a pending
    exception from the call-out — ends with the reserved slot nulled and the
    anchor zeroed (the only runs that do not reach teardown failed before
    the guard was installed, with `UnsupportedCallerSensitive` or
    `DecodeFailure`). -/
theorem C9_clear_always_wipes (s : JavaFrameStream) (buf : Buffer) (sh : Bool)
    (mode : Mode) (s0 : JavaFrameStream) (skip : Nat) (c : Int) (start : Nat)
    (buf0 : Buffer) (cb : Callback) :
    ((cleanup_magic_on_exit s buf).2.2 magic_pos = Slot.null ∧
     (cleanup_magic_on_exit s buf).2.1.anchor = 0 ∧
     (cleanup_magic_on_exit s buf).1 = check_magic s buf) ∧
    ((fetchFirstBatch sh mode s0 skip c start buf0 cb).result
        = .error .unsupportedCallerSensitive ∨
     (fetchFirstBatch sh mode s0 skip c start buf0 cb).result
        = .error .decodeFailure ∨
     ((fetchFirstBatch sh mode s0 skip c start buf0 cb).buf magic_pos
        = Slot.null ∧
      (fetchFirstBatch sh mode s0 skip c start buf0 cb).stream.anchor
        = 0)) := by
  refine ⟨⟨by simp [cleanup_magic_on_exit, Function.update_same],
           by simp [cleanup_magic_on_exit], rfl⟩, ?_⟩
  rcases fetchFirstBatch_result_cases sh mode s0 skip c start buf0 cb
    with h | h | h
  · exact Or.inl h
  · exact Or.inr (Or.inl h)
  · exact Or.inr (Or.inr ⟨h.1, h.2.1⟩)

/-- C5: a fill step raises `DecodeFailure` exactly when the cursor was not
    exhausted on entry to the fill yet zero frames were produced — stated
    for the first batch and for every later batch; in particular a walk
    whose skip count is at least the remaining frame count leaves the
    cursor exhausted before filling, decodes zero frames, and (with a
    well-behaved call-out) terminates without error. -/
theorem C5_decode_failure_exactly (sh : Bool) (mode : Mode)
    (s0 : JavaFrameStream) (skip : Nat) (c : Int) (start : Nat) (buf : Buffer)
    (cb : Callback) (r : Nat) (heap : Heap) (jt : Nat) (magic : Int)
    (addr : Nat) (stream : JavaFrameStream) (buf2 : Buffer) (c2 : Int)
    (start2 : Nat) :
    ((fetchFirstBatch sh mode s0 skip c start buf cb).result
        = .error .decodeFailure
      ↔ ((skip_frames_n (skip_walker_frames s0) skip).at_end = false ∧
         (fill_in_frames sh mode (skip_frames_n (skip_walker_frames s0) skip)
            c start start 0 buf).result = .ok 0)) ∧
    ((skip_walker_frames s0).frames.length ≤ skip →
      (fetchFirstBatch sh mode s0 skip c start buf cb).decoded = [] ∧
      (fetchFirstBatch sh mode s0 skip c start buf
          (fun b t => (b, t, .ok r))).result = .ok r) ∧
    (from_current heap jt magic buf2 = some (addr, stream) → 0 < c2 →
      ((fetchNextBatch sh mode heap jt magic c2 start2 buf2).result
          = .error .decodeFailure
        ↔ (stream.at_end = false ∧ stream.next.at_end = false ∧
           (fill_in_frames sh mode stream.next c2 start2 start2 0
              buf2).result = .ok 0))) := by
  refine ⟨?_, ?_, ?_⟩
  · by_cases hend : (skip_frames_n (skip_walker_frames s0) skip).at_end
    · have hf : fetchFirstBatch sh mode s0 skip c start buf cb
          = doCallAndCleanup cb ⟨.ok 0, start, [],
              skip_frames_n (skip_walker_frames s0) skip, buf⟩ := by
        rw [fetchFirstBatch]
        simp [hend]
      constructor
      · intro hDF
        rw [hf] at hDF
        rcases (doCallAndCleanup_spec cb _).2.2.2.2 _ hDF with h | ⟨x, h⟩ <;>
          simp at h
      · rintro ⟨h1, _⟩
        rw [hend] at h1
        simp at h1
    · rcases hres : (fill_in_frames sh mode
          (skip_frames_n (skip_walker_frames s0) skip) c start start 0
          buf).result with e | n
      · have he := fill_error_ucs sh mode
          (skip_frames_n (skip_walker_frames s0) skip) c start start 0 buf
          e hres
        have hf : (fetchFirstBatch sh mode s0 skip c start buf cb).result
            = .error e := by
          rw [fetchFirstBatch]
          simp [hend, hres]
        constructor
        · intro hDF
          rw [hf, he] at hDF
          simp at hDF
        · rintro ⟨_, h2⟩
          simp at h2
      · by_cases hn : n < 1
        · have hn0 : n = 0 := by omega
          have hf : (fetchFirstBatch sh mode s0 skip c start buf cb).result
              = .error .decodeFailure := by
            rw [fetchFirstBatch]
            simp [hend, hres, hn]
          constructor
          · intro _
            refine ⟨by simpa using hend, ?_⟩
            rw [hn0]
          · intro _
            exact hf
        · have hf : fetchFirstBatch sh mode s0 skip c start buf cb
              = doCallAndCleanup cb (fill_in_frames sh mode
                  (skip_frames_n (skip_walker_frames s0) skip) c start start
                  0 buf) := by
            rw [fetchFirstBatch]
            simp [hend, hres, hn]
          constructor
          · intro hDF
            rw [hf] at hDF
            rcases (doCallAndCleanup_spec cb _).2.2.2.2 _ hDF with h | ⟨x, h⟩
              <;> simp at h
          · rintro ⟨_, h2⟩
            have : n = 0 := by simpa using h2
            omega
  · intro hlen
    have hend : (skip_frames_n (skip_walker_frames s0) skip).at_end = true :=
      skip_frames_n_at_end skip (skip_walker_frames s0) hlen
    constructor
    · have hf : fetchFirstBatch sh mode s0 skip c start buf cb
          = doCallAndCleanup cb ⟨.ok 0, start, [],
              skip_frames_n (skip_walker_frames s0) skip, buf⟩ := by
        rw [fetchFirstBatch]
        simp [hend]
      rw [hf]
      exact (doCallAndCleanup_spec cb _).2.2.2.1
    · have hf : fetchFirstBatch sh mode s0 skip c start buf
            (fun b t => (b, t, .ok r))
          = doCallAndCleanup (fun b t => (b, t, .ok r)) ⟨.ok 0, start, [],
              skip_frames_n (skip_walker_frames s0) skip, buf⟩ := by
        rw [fetchFirstBatch]
        simp [hend]
      rw [hf]
      exact doCallAndCleanup_benign _ r
  · intro hvalid hc2
    have hc2' : ¬c2 ≤ 0 := not_le.mpr hc2
    by_cases hs : stream.at_end
    · have hf : (fetchNextBatch sh mode heap jt magic c2 start2 buf2).result
          = .ok (start2 : Int) := by
        rw [fetchNextBatch, hvalid]
        simp [hc2', hs]
      constructor
      · intro hDF
        rw [hf] at hDF
        simp at hDF
      · rintro ⟨h1, _⟩
        rw [hs] at h1
        simp at h1
    · by_cases hs1 : stream.next.at_end
      · have hf : (fetchNextBatch sh mode heap jt magic c2 start2
            buf2).result = .ok (start2 : Int) := by
          rw [fetchNextBatch, hvalid]
          simp [hc2', hs, hs1]
        constructor
        · intro hDF
          rw [hf] at hDF
          simp at hDF
        · rintro ⟨_, h1, _⟩
          rw [hs1] at h1
          simp at h1
      · rcases hres2 : (fill_in_frames sh mode stream.next c2 start2 start2
            0 buf2).result with e | n
        · have he := fill_error_ucs sh mode stream.next c2 start2 start2 0
            buf2 e hres2
          have hf : (fetchNextBatch sh mode heap jt magic c2 start2
              buf2).result = .error e := by
            rw [fetchNextBatch, hvalid]
            simp [hc2', hs, hs1, hres2]
          constructor
          · intro hDF
            rw [hf, he] at hDF
            simp at hDF
          · rintro ⟨_, _, h2⟩
            simp at h2
        · by_cases hn : n < 1
          · have hn0 : n = 0 := by omega
            have hf : (fetchNextBatch sh mode heap jt magic c2 start2
                buf2).result = .error .decodeFailure := by
              rw [fetchNextBatch, hvalid]
              simp [hc2', hs, hs1, hres2, hn]
            constructor
            · intro _
              refine ⟨by simpa using hs, by simpa using hs1, ?_⟩
              rw [hn0]
            · intro _
              exact hf
          · have hf : (fetchNextBatch sh mode heap jt magic c2 start2
                buf2).result = .ok ((fill_in_frames sh mode stream.next c2
                  start2 start2 0 buf2).end_index : Int) := by
              rw [fetchNextBatch, hvalid]
              simp [hc2', hs, hs1, hres2, hn]
            constructor
            · intro hDF
              rw [hf] at hDF
              simp at hDF
            · rintro ⟨_, _, h2⟩
              have : n = 0 := by simpa using h2
              omega

theorem C5_witness :
    ((fetchFirstBatch false ⟨true, false, true, false⟩
        (JavaFrameStream.mk
          [⟨some ⟨1, false, false, false, 11, false⟩, 10⟩,
           ⟨some ⟨2, false, false, false, 12, false⟩, 20⟩] 9 0 0 77 true)
        5 3 2 (fun _ => Slot.null) (fun b t => (b, t, .ok 0))).result
        = .error .decodeFailure
      ↔ ((skip_frames_n (skip_walker_frames (JavaFrameStream.mk
            [⟨some ⟨1, false, false, false, 11, false⟩, 10⟩,
             ⟨some ⟨2, false, false, false, 12, false⟩, 20⟩] 9 0 0 77 true))
            5).at_end = false ∧
         (fill_in_frames false ⟨true, false, true, false⟩
            (skip_frames_n (skip_walker_frames (JavaFrameStream.mk
              [⟨some ⟨1, false, false, false, 11, false⟩, 10⟩,
               ⟨some ⟨2, false, false, false, 12, false⟩, 20⟩] 9 0 0 77 true))
              5) 3 2 2 0 (fun _ => Slot.null)).result = .ok 0)) ∧
    ((fetchFirstBatch false ⟨true, false, true, false⟩
        (JavaFrameStream.mk
          [⟨some ⟨1, false, false, false, 11, false⟩, 10⟩,
           ⟨some ⟨2, false, false, false, 12, false⟩, 20⟩] 9 0 0 77 true)
        5 3 2 (fun _ => Slot.null) (fun b t => (b, t, .ok 0))).decoded = [] ∧
     (fetchFirstBatch false ⟨true, false, true, false⟩
        (JavaFrameStream.mk
          [⟨some ⟨1, false, false, false, 11, false⟩, 10⟩,
           ⟨some ⟨2, false, false, false, 12, false⟩, 20⟩] 9 0 0 77 true)
        5 3 2 (fun _ => Slot.null) (fun b t => (b, t, .ok 0))).result
        = .ok 0) ∧
    ((fetchNextBatch false ⟨true, false, true, false⟩
        (fun a => if a = 42 then some (JavaFrameStream.mk
          [⟨some ⟨1, false, false, false, 11, false⟩, 10⟩,
           ⟨some ⟨2, false, false, false, 12, false⟩, 20⟩,
           ⟨some ⟨3, false, false, false, 13, false⟩, 30⟩] 1 0 42 42 true)
          else none)
        1 42 3 2
        (fun i => if i = 0 then Slot.threadObj 1 else Slot.null)).result
        = .error .decodeFailure
      ↔ ((JavaFrameStream.mk
            [⟨some ⟨1, false, false, false, 11, false⟩, 10⟩,
             ⟨some ⟨2, false, false, false, 12, false⟩, 20⟩,
             ⟨some ⟨3, false, false, false, 13, false⟩, 30⟩] 1 0 42 42
             true).at_end = false ∧
          (JavaFrameStream.mk
            [⟨some ⟨1, false, false, false, 11, false⟩, 10⟩,
             ⟨some ⟨2, false, false, false, 12, false⟩, 20⟩,
             ⟨some ⟨3, false, false, false, 13, false⟩, 30⟩] 1 0 42 42
             true).next.at_end = false ∧
          (fill_in_frames false ⟨true, false, true, false⟩
            (JavaFrameStream.mk
              [⟨some ⟨1, false, false, false, 11, false⟩, 10⟩,
               ⟨some ⟨2, false, false, false, 12, false⟩, 20⟩,
               ⟨some ⟨3, false, false, false, 13, false⟩, 30⟩] 1 0 42 42
               true).next 3 2 2 0
            (fun i => if i = 0 then Slot.threadObj 1 else Slot.null)).result
            = .ok 0)) := by
  have h := C5_decode_failure_exactly false ⟨true, false, true, false⟩
    (JavaFrameStream.mk
      [⟨some ⟨1, false, false, false, 11, false⟩, 10⟩,
       ⟨some ⟨2, false, false, false, 12, false⟩, 20⟩] 9 0 0 77 true)
    5 3 2 (fun _ => Slot.null) (fun b t => (b, t, .ok 0)) 0
    (fun a => if a = 42 then some (JavaFrameStream.mk
      [⟨some ⟨1, false, false, false, 11, false⟩, 10⟩,
       ⟨some ⟨2, false, false, false, 12, false⟩, 20⟩,
       ⟨some ⟨3, false, false, false, 13, false⟩, 30⟩] 1 0 42 42 true)
      else none)
    1 42 42
    (JavaFrameStream.mk
      [⟨some ⟨1, false, false, false, 11, false⟩, 10⟩,
       ⟨some ⟨2, false, false, false, 12, false⟩, 20⟩,
       ⟨some ⟨3, false, false, false, 13, false⟩, 30⟩] 1 0 42 42 true)
    (fun i => if i = 0 then Slot.threadObj 1 else Slot.null) 3 2
  exact ⟨h.1, h.2.1 (by simp [skip_walker_frames]), h.2.2 rfl (by decide)⟩
